import Mathlib

/-!
Shallow embedding of the Zeenea GraphQL client (`zeenea/graphql.py`) and the
pagination loop of `export_items_in_excel.py`, with theorems settling the
specification claims about them.

Modelling conventions:
* Python JSON values are modelled by the inductive `PyJson`; absent dictionary
  keys are `Option.none`; Python dicts appear as association lists with
  distinct keys.
* Python `str(x)` / `repr(x)` are modelled by `pyStr` / `pyRepr`; `repr` of a
  string is modelled without escape sequences (values are quoted verbatim).
* Machine details (sockets, real sleeping) are replaced by explicit data: the
  HTTP endpoint is a function from the attempt index to a response, and sleep
  durations are recorded as a list of `(attempt index, duration)` pairs with
  durations in exact rational seconds.
-/

/-- Model of a Python JSON value. -/
inductive PyJson where
  | null
  | bool (b : Bool)
  | int (n : Int)
  | str (s : String)
  | list (xs : List PyJson)
  | dict (kvs : List (String × PyJson))

/-- Python `sep.join(l)`. -/
def pyJoin (sep : String) : List String → String
  | [] => ""
  | [x] => x
  | x :: y :: rest => x ++ sep ++ pyJoin sep (y :: rest)

mutual

/-- Python `repr` of a JSON value (string escaping not modelled). -/
def pyRepr : PyJson → String
  | .null => "None"
  | .bool b => if b then "True" else "False"
  | .int n => toString n
  | .str s => "\x27" ++ s ++ "\x27"
  | .list xs => "[" ++ pyJoin ", " (pyReprList xs) ++ "]"
  | .dict kvs => "\x7b" ++ pyJoin ", " (pyReprDict kvs) ++ "\x7d"

/-- `repr` of every element of a JSON array. -/
def pyReprList : List PyJson → List String
  | [] => []
  | x :: xs => pyRepr x :: pyReprList xs

/-- `repr` of every entry of a JSON object. -/
def pyReprDict : List (String × PyJson) → List String
  | [] => []
  | (k, v) :: kvs => ("\x27" ++ k ++ "\x27: " ++ pyRepr v) :: pyReprDict kvs

end

/-- Python `str` of a JSON value: a string renders verbatim, anything else as `repr`. -/
def pyStr : PyJson → String
  | .str s => s
  | v => pyRepr v

/-- Python truthiness of a JSON value. -/
def pyTruthy : PyJson → Bool
  | .null => false
  | .bool b => b
  | .int n => n != 0
  | .str s => s != ""
  | .list xs => !xs.isEmpty
  | .dict kvs => !kvs.isEmpty

/-- Python `x == code` where `x : Option PyJson` is a JSON value (or `None`) and
`code` a `str`: true exactly when `x` is the same string. -/
def pyEqStr : Option PyJson → String → Bool
  | some (.str s), c => s == c
  | _, _ => false

/-- Python `f-string` rendering of an optional string (`None` prints as `"None"`). -/
def pyOptStr : Option String → String
  | none => "None"
  | some s => s

/-- Python `f-string` rendering of an optional integer. -/
def pyOptInt : Option Int → String
  | none => "None"
  | some n => toString n

/-- Python `repr` of an optional string, as used by `f"{name=}"` (escaping not modelled). -/
def pyOptRepr : Option String → String
  | none => "None"
  | some s => "\x27" ++ s ++ "\x27"

/-! ## JSON input shapes

Typed views of the JSON bodies the client manipulates. A field of value
`none` models an absent key. -/

/-- JSON shape of one entry of a `locations` array in a GraphQL error. -/
structure LocJson where
  line : Option Int
  column : Option Int

/-- JSON shape of one element of the `errors` array of a GraphQL response. -/
structure ErrorJson where
  message : Option String
  path : Option PyJson
  locations : Option (List LocJson)
  extensions : Option (List (String × PyJson))

/-- JSON shape of the body of a GraphQL HTTP response. -/
structure ResponseBody where
  data : Option PyJson
  errors : Option (List ErrorJson)
  extensions : Option PyJson

/-! ## Response model (`GqlResponse`, `GqlError` and friends) -/

/-- `GqlErrorLocation`: line/column of a GraphQL error. -/
structure GqlErrorLocation where
  line : Option Int
  column : Option Int

/-- `GqlErrorLocation.__init__`. -/
def GqlErrorLocation.ofJson (j : LocJson) : GqlErrorLocation :=
  { line := j.line, column := j.column }

/-- `GqlErrorLocation.__str__`: `f"({self.line},{self.column})"`. -/
def GqlErrorLocation.str (l : GqlErrorLocation) : String :=
  "(" ++ pyOptInt l.line ++ "," ++ pyOptInt l.column ++ ")"

/-- `GqlError`: message, path, locations, extensions, and the code extracted
from the extensions. -/
structure GqlError where
  message : Option String
  path : Option PyJson
  locations : Option (List GqlErrorLocation)
  extensions : Option (List (String × PyJson))
  code : Option PyJson

/-- `GqlError.__init__`: `locations` is kept only when present and non-empty
(the walrus `if locations := json.get("locations")` tests truthiness); `code`
is `extensions.get("code")` when `extensions` is truthy, else `None`. -/
def GqlError.ofJson (j : ErrorJson) : GqlError :=
  { message := j.message
    path := j.path
    locations := match j.locations with
      | some (l :: ls) => some ((l :: ls).map GqlErrorLocation.ofJson)
      | _ => none
    extensions := j.extensions
    code := match j.extensions with
      | some kvs => if kvs.isEmpty then none else kvs.lookup "code"
      | none => none }

/-- `GqlErrorList`: a wrapper around a list of errors. An instance of this
class is always truthy in Python (it defines neither `__bool__` nor `__len__`). -/
structure GqlErrorList where
  errors : List GqlError

/-- `GqlResponse`: data, optional error list, extensions. -/
structure GqlResponse where
  data : Option PyJson
  errors : Option GqlErrorList
  extensions : Option PyJson

/-- `GqlResponse.__init__`: the `errors` attribute is a `GqlErrorList` when the
body's `errors` value is truthy (present and non-empty), else `None`. -/
def GqlResponse.ofJson (b : ResponseBody) : GqlResponse :=
  { data := b.data
    errors := match b.errors with
      | some (e :: es) => some ⟨(e :: es).map GqlError.ofJson⟩
      | _ => none
    extensions := b.extensions }

/-- `GqlResponse.has_errors`: `bool(self.errors)` — a `GqlErrorList` object is
always truthy, so this is exactly "the attribute is not `None`". -/
def GqlResponse.has_errors (r : GqlResponse) : Bool :=
  r.errors.isSome

/-- `GqlResponse.has_error(code, unique)`. -/
def GqlResponse.has_error (r : GqlResponse) (code : String) (unique : Bool) : Bool :=
  match r.errors with
  | none => false
  | some el =>
    match el.errors with
    | [] => false
    | e :: rest =>
      if unique then
        decide ((e :: rest).length = 1) && pyEqStr e.code code
      else
        (e :: rest).any fun err => pyEqStr err.code code

/-- The error list carried by a response (`[]` when the `errors` attribute is `None`). -/
def GqlResponse.errorList (r : GqlResponse) : List GqlError :=
  match r.errors with
  | none => []
  | some el => el.errors

/-! ## `end_cursor` -/

/-- JSON shape of a `pageInfo` object. -/
structure PageInfo where
  hasNextPage : Bool
  endCursor : Option String

/-- `end_cursor(page_info)`: the end cursor if `hasNextPage`, else `None`. -/
def end_cursor (page_info : PageInfo) : Option String :=
  if page_info.hasNextPage then page_info.endCursor else none

/-! ## Claim theorems (response model and cursor) -/

/-- **C5.** For every page-info object carrying a `hasNextPage` boolean and an
`endCursor` value, `end_cursor` returns a cursor iff `hasNextPage` is true, the
returned cursor equals the input's `endCursor` exactly, and when `hasNextPage`
is false it returns none. -/
theorem end_cursor_iff_hasNextPage (p : PageInfo) (c : String)
    (h : p.endCursor = some c) :
    ((end_cursor p).isSome = true ↔ p.hasNextPage = true) ∧
      (p.hasNextPage = true → end_cursor p = some c) ∧
      (p.hasNextPage = false → end_cursor p = none) := by
  cases hb : p.hasNextPage <;> simp [end_cursor, hb, h]

/-- Witness for C5 at a concrete page-info object. -/
theorem end_cursor_iff_hasNextPage_witness :
    (end_cursor ⟨true, some "c1"⟩).isSome = true ↔ True := by
  have h := end_cursor_iff_hasNextPage ⟨true, some "c1"⟩ "c1" rfl
  simp [h.1, h.2.1 rfl]

/-- **C7.** A response constructed from a JSON body with no `errors` key has
`has_errors() = false` and its `errors` attribute is `None`. -/
theorem ofJson_no_errors_key (b : ResponseBody) (h : b.errors = none) :
    (GqlResponse.ofJson b).has_errors = false ∧ (GqlResponse.ofJson b).errors = none := by
  simp [GqlResponse.ofJson, GqlResponse.has_errors, h]

/-- Witness for C7 at a concrete body. -/
theorem ofJson_no_errors_key_witness :
    (GqlResponse.ofJson ⟨some (.str "x"), none, none⟩).has_errors = false :=
  (ofJson_no_errors_key ⟨some (.str "x"), none, none⟩ rfl).1

/-- **C9.** A response constructed from a body whose `errors` key maps to an
empty list has `errors = None` (not an empty `GqlErrorList`), `has_errors()`
false, and `has_error(code, unique)` false for every code and flag. -/
theorem ofJson_empty_errors_list (b : ResponseBody) (h : b.errors = some []) :
    (GqlResponse.ofJson b).errors = none ∧
      (GqlResponse.ofJson b).has_errors = false ∧
      ∀ (code : String) (unique : Bool),
        (GqlResponse.ofJson b).has_error code unique = false := by
  refine ⟨?_, ?_, ?_⟩ <;>
    simp [GqlResponse.ofJson, GqlResponse.has_errors, GqlResponse.has_error, h]

/-- Witness for C9 at a concrete body. -/
theorem ofJson_empty_errors_list_witness :
    (GqlResponse.ofJson ⟨none, some [], none⟩).has_error "NOT_FOUND" true = false :=
  (ofJson_empty_errors_list ⟨none, some [], none⟩ rfl).2.2 "NOT_FOUND" true

/-- `pyEqStr` tested against a string succeeds exactly on that string value. -/
theorem pyEqStr_iff (oc : Option PyJson) (s : String) :
    pyEqStr oc s = true ↔ oc = some (.str s) := by
  cases oc with
  | none => simp [pyEqStr]
  | some v => cases v <;> simp [pyEqStr]

/-- **C6.** For every response and code string: `has_error(code, unique=True)`
is true iff the error list has exactly one element whose extracted code equals
`code`; `has_error(code, unique=False)` is true iff at least one element's
extracted code equals `code`. -/
theorem has_error_spec (r : GqlResponse) (code : String) :
    (r.has_error code true = true ↔
        ∃ e, r.errorList = [e] ∧ e.code = some (.str code)) ∧
      (r.has_error code false = true ↔
        ∃ e ∈ r.errorList, e.code = some (.str code)) := by
  constructor
  · cases hr : r.errors with
    | none => simp [GqlResponse.has_error, GqlResponse.errorList, hr]
    | some el =>
      cases hl : el.errors with
      | nil => simp [GqlResponse.has_error, GqlResponse.errorList, hr, hl]
      | cons e rest =>
        cases rest with
        | nil =>
          simp [GqlResponse.has_error, GqlResponse.errorList, hr, hl, pyEqStr_iff]
        | cons a as =>
          simp [GqlResponse.has_error, GqlResponse.errorList, hr, hl, pyEqStr_iff]
  · cases hr : r.errors with
    | none => simp [GqlResponse.has_error, GqlResponse.errorList, hr]
    | some el =>
      cases hl : el.errors with
      | nil => simp [GqlResponse.has_error, GqlResponse.errorList, hr, hl]
      | cons e rest =>
        simp [GqlResponse.has_error, GqlResponse.errorList, hr, hl,
          List.any_eq_true, pyEqStr_iff]

/-! ## Operation-name extraction and the request payload

The source compiles `OPERATION_NAME_RE = '^\s+(?:query|mutation)\s+([_A-Za-z][_A-Za-z0-9]*)'`
and applies it with `re.match` (anchored at the start of the query text). -/

/-- Python `\s` on the ASCII range (the Unicode-only whitespace code points are
not modelled; none of the claims involves them). -/
def isPySpace (c : Char) : Bool :=
  c == ' ' || c == '\t' || c == '\n' || c == '\r' || c == '\x0b' || c == '\x0c'

/-- The regex class `[_A-Za-z]`. -/
def isIdentStart (c : Char) : Bool :=
  c == '_' || ('A' ≤ c && c ≤ 'Z') || ('a' ≤ c && c ≤ 'z')

/-- The regex class `[_A-Za-z0-9]`. -/
def isIdentCont (c : Char) : Bool :=
  isIdentStart c || ('0' ≤ c && c ≤ '9')

/-- The alternation `(?:query|mutation)`: the two keywords share no common
prefix, so the regex backtracking collapses to this deterministic match. -/
def stripKeyword : List Char → Option (List Char)
  | 'q' :: 'u' :: 'e' :: 'r' :: 'y' :: rest => some rest
  | 'm' :: 'u' :: 't' :: 'a' :: 't' :: 'i' :: 'o' :: 'n' :: rest => some rest
  | _ => none

/-- The suffix `\s+([_A-Za-z][_A-Za-z0-9]*)` of the regex, applied after the
keyword has been consumed, returning the captured group. -/
def matchNameAfterSpace (r2 : List Char) : Option String :=
  if (r2.takeWhile isPySpace).isEmpty then none
  else
    match r2.dropWhile isPySpace with
    | [] => none
    | c :: cs => if isIdentStart c then some (String.mk (c :: cs.takeWhile isIdentCont)) else none

/-- The suffix `(?:query|mutation)\s+([_A-Za-z][_A-Za-z0-9]*)` of the regex,
returning the captured group. -/
def matchKeywordName (s : List Char) : Option String :=
  match stripKeyword s with
  | none => none
  | some r2 => matchNameAfterSpace r2

/-- `re.match(OPERATION_NAME_RE, s)` on the character list: the leading `\s+`
requires at least one whitespace character before the keyword. -/
def opMatch (s : List Char) : Option String :=
  if (s.takeWhile isPySpace).isEmpty then none
  else matchKeywordName (s.dropWhile isPySpace)

/-- The operation name extracted from a query text
(`OPERATION_NAME_RE.match(query)` in `ZeeneaGraphQLClient.request`). -/
def opName (q : String) : Option String :=
  opMatch q.data

/-- The POST body built by `ZeeneaGraphQLClient.request`. The field `vars`
models the body's `variables` entry (the Python identifier is a reserved word
in Lean); `operationName = none` models the key being absent. -/
structure Payload where
  query : String
  vars : List (String × PyJson)
  operationName : Option String

/-- Payload construction in `ZeeneaGraphQLClient.request`. -/
def buildPayload (q : String) (vs : List (String × PyJson)) : Payload :=
  { query := q, vars := vs, operationName := opName q }

/-- Split a character list at newline characters (used both by the model of
`textwrap.indent` and by the spec-side notion of "line"). -/
def splitNl : List Char → List (List Char)
  | [] => [[]]
  | c :: rest =>
    if c = '\n' then [] :: splitNl rest
    else
      match splitNl rest with
      | [] => [[c]]
      | l :: ls => (c :: l) :: ls

/-- Modelled from the spec: the first non-blank line of a query text, for the
spec's operation-name rule (the source has no such notion; its regex is
anchored at the start of the text). -/
def specFirstNonBlankLine (q : String) : Option (List Char) :=
  (splitNl q.data).find? fun l => l.any fun c => !(isPySpace c)

/-- Modelled from the spec: "`operationName` is included only if the query
text's first non-blank line matches the `query <Name>` or `mutation <Name>`
pattern" — the name extracted by that rule. -/
def specOpName (q : String) : Option String :=
  match specFirstNonBlankLine q with
  | none => none
  | some l => matchKeywordName (l.dropWhile isPySpace)

/-! ## Endpoint URL derivation (`ZeeneaGraphQLClient.__init__`) -/

/-- `re.match('^https?://', tenant)`: the optional `s` and the literal `://`,
matched deterministically. -/
def matchHttp : List Char → Bool
  | 'h' :: 't' :: 't' :: 'p' :: rest =>
    match rest with
    | 's' :: ':' :: '/' :: '/' :: _ => true
    | ':' :: '/' :: '/' :: _ => true
    | _ => false
  | _ => false

/-- The endpoint URL derived by `ZeeneaGraphQLClient.__init__`. -/
def endpointUrl (tenant : String) : String :=
  if !(matchHttp tenant.data) then
    "https://" ++ tenant ++ ".zeenea.app/api/catalog/graphql"
  else
    tenant ++ "/api/catalog/graphql"

/-! ## Claim theorems (operation name, endpoint URL) -/

/-- A character of the class `[_A-Za-z]` is never a `\s` character. -/
theorem isIdentStart_not_pySpace {c : Char} (h : isIdentStart c = true) :
    isPySpace c = false := by
  by_contra hs
  rw [Bool.not_eq_false] at hs
  simp only [isPySpace, Bool.or_eq_true, beq_iff_eq] at hs
  rcases hs with ((((rfl | rfl) | rfl) | rfl) | rfl) | rfl <;> exact absurd h (by decide)

/-- Consuming the `query` keyword. -/
theorem stripKeyword_query (X : List Char) : stripKeyword ("query".data ++ X) = some X := rfl

/-- Consuming the `mutation` keyword. -/
theorem stripKeyword_mutation (X : List Char) :
    stripKeyword ("mutation".data ++ X) = some X := rfl

/-- `\s*` does not consume the head of either keyword. -/
theorem dropWhile_pySpace_keyword (kw X : List Char)
    (h : kw = "query".data ∨ kw = "mutation".data) :
    (kw ++ X).dropWhile isPySpace = kw ++ X := by
  rcases h with rfl | rfl <;> rfl

/-- The name part of the regex on input `⟨space⟩⟨spaces⟩⟨ident⟩⟨rest⟩`. -/
theorem matchNameAfterSpace_eq (b : Char) (ws2' cs rest : List Char) (c : Char)
    (hbS : isPySpace b = true) (hws2'S : ∀ x ∈ ws2', isPySpace x = true)
    (hc : isIdentStart c = true) (hcs : ∀ x ∈ cs, isIdentCont x = true)
    (hrest : ∀ x, rest.head? = some x → isIdentCont x = false) :
    matchNameAfterSpace (b :: (ws2' ++ (c :: (cs ++ rest)))) = some (String.mk (c :: cs)) := by
  rw [matchNameAfterSpace, List.takeWhile_cons_of_pos hbS, if_neg (by simp)]
  rw [List.dropWhile_cons_of_pos hbS, List.dropWhile_append_of_pos hws2'S,
    List.dropWhile_cons_of_neg (by simp [isIdentStart_not_pySpace hc])]
  show (if isIdentStart c then some (String.mk (c :: (cs ++ rest).takeWhile isIdentCont))
    else none) = _
  rw [if_pos hc, List.takeWhile_append_of_pos hcs]
  have hr : rest.takeWhile isIdentCont = [] := by
    cases rest with
    | nil => rfl
    | cons x xs => exact List.takeWhile_cons_of_neg (by simp [hrest x rfl])
  rw [hr, List.append_nil]

/-- The full regex on a text of the shape
`⟨space⟩⟨spaces⟩⟨keyword⟩⟨space⟩⟨spaces⟩⟨ident⟩⟨rest⟩`. -/
theorem opMatch_eq_of_shape (a : Char) (w' kw : List Char) (b : Char) (ws2' cs rest : List Char)
    (c : Char)
    (haS : isPySpace a = true) (hw'S : ∀ x ∈ w', isPySpace x = true)
    (hkw : kw = "query".data ∨ kw = "mutation".data)
    (hbS : isPySpace b = true) (hws2'S : ∀ x ∈ ws2', isPySpace x = true)
    (hc : isIdentStart c = true) (hcs : ∀ x ∈ cs, isIdentCont x = true)
    (hrest : ∀ x, rest.head? = some x → isIdentCont x = false) :
    opMatch (a :: (w' ++ (kw ++ (b :: (ws2' ++ (c :: (cs ++ rest))))))) =
      some (String.mk (c :: cs)) := by
  rw [opMatch, List.takeWhile_cons_of_pos haS, if_neg (by simp)]
  rw [List.dropWhile_cons_of_pos haS, List.dropWhile_append_of_pos hw'S,
    dropWhile_pySpace_keyword _ _ hkw]
  rcases hkw with rfl | rfl
  · rw [matchKeywordName, stripKeyword_query]
    exact matchNameAfterSpace_eq b ws2' cs rest c hbS hws2'S hc hcs hrest
  · rw [matchKeywordName, stripKeyword_mutation]
    exact matchNameAfterSpace_eq b ws2' cs rest c hbS hws2'S hc hcs hrest

/-- **C2 (counterexample).** The query text `query find_datasets($after: String)`
has its first non-blank line matching the `query <Name>` pattern (the spec-side
rule extracts `find_datasets`), yet the built payload omits `operationName`:
the compiled regex starts with `\s+`, so a query text whose very first
character starts the keyword never matches. -/
theorem operationName_first_line_cex :
    specOpName "query find_datasets($after: String)" = some "find_datasets" ∧
      (buildPayload "query find_datasets($after: String)" []).operationName = none := by
  exact ⟨by decide, by decide⟩

/-- Inverting the head of `dropWhile`: the first kept element fails the predicate. -/
theorem dropWhile_head_false {α : Type} {p : α → Bool} {l : List α} {x : α}
    (h : (l.dropWhile p).head? = some x) : p x = false := by
  have hd := List.head?_dropWhile_not p l
  rw [h] at hd
  exact hd

/-- Inverting the keyword alternation: a successful strip came from `query` or
`mutation` at the front. -/
theorem stripKeyword_inv {r r2 : List Char} (h : stripKeyword r = some r2) :
    r = "query".data ++ r2 ∨ r = "mutation".data ++ r2 := by
  unfold stripKeyword at h
  split at h
  · cases h
    left
    rfl
  · cases h
    right
    rfl
  · exact absurd h (by simp)

/-- Inverting the name part of the regex: a successful match after the keyword
decomposes the remainder into whitespace, the captured name, and a remainder
that cannot extend the name. -/
theorem matchNameAfterSpace_inv {r2 : List Char} {n : String}
    (h : matchNameAfterSpace r2 = some n) :
    ∃ (ws2 cs rest : List Char) (c : Char),
      r2 = ws2 ++ (c :: (cs ++ rest)) ∧ ws2 ≠ [] ∧ (∀ x ∈ ws2, isPySpace x = true) ∧
        isIdentStart c = true ∧ (∀ x ∈ cs, isIdentCont x = true) ∧
        (∀ x, rest.head? = some x → isIdentCont x = false) ∧
        n = String.mk (c :: cs) := by
  unfold matchNameAfterSpace at h
  by_cases he : (r2.takeWhile isPySpace).isEmpty
  · rw [if_pos he] at h
    exact absurd h (by simp)
  · rw [if_neg he] at h
    cases hdt : r2.dropWhile isPySpace with
    | nil =>
      rw [hdt] at h
      exact absurd h (by simp)
    | cons c cs' =>
      rw [hdt] at h
      have h' : (if isIdentStart c then some (String.mk (c :: cs'.takeWhile isIdentCont))
          else none) = some n := h
      by_cases hic : isIdentStart c
      · rw [if_pos hic] at h'
        injection h' with h2
        refine ⟨r2.takeWhile isPySpace, cs'.takeWhile isIdentCont, cs'.dropWhile isIdentCont,
          c, ?_, ?_, ?_, hic, ?_, ?_, h2.symm⟩
        · calc r2 = r2.takeWhile isPySpace ++ r2.dropWhile isPySpace :=
                (List.takeWhile_append_dropWhile isPySpace r2).symm
            _ = r2.takeWhile isPySpace ++ (c :: cs') := by rw [hdt]
            _ = r2.takeWhile isPySpace ++
                (c :: (cs'.takeWhile isIdentCont ++ cs'.dropWhile isIdentCont)) := by
              rw [List.takeWhile_append_dropWhile]
        · intro hnil
          exact he (by simp [hnil])
        · intro x hx
          exact List.mem_takeWhile_imp hx
        · intro x hx
          exact List.mem_takeWhile_imp hx
        · intro x hx
          exact dropWhile_head_false hx
      · rw [if_neg hic] at h'
        exact absurd h' (by simp)

/-- Inverting `matchKeywordName`. -/
theorem matchKeywordName_inv {r : List Char} {n : String}
    (h : matchKeywordName r = some n) :
    ∃ kw r2, r = kw ++ r2 ∧ (kw = "query".data ∨ kw = "mutation".data) ∧
      matchNameAfterSpace r2 = some n := by
  unfold matchKeywordName at h
  cases hsk : stripKeyword r with
  | none =>
    rw [hsk] at h
    exact absurd h (by simp)
  | some r2 =>
    rw [hsk] at h
    rcases stripKeyword_inv hsk with hr | hr
    · exact ⟨"query".data, r2, hr, Or.inl rfl, h⟩
    · exact ⟨"mutation".data, r2, hr, Or.inr rfl, h⟩

/-- Inverting the leading `\s+` of the regex. -/
theorem opMatch_inv {s : List Char} {n : String} (h : opMatch s = some n) :
    ∃ w r, s = w ++ r ∧ w ≠ [] ∧ (∀ x ∈ w, isPySpace x = true) ∧
      matchKeywordName r = some n := by
  unfold opMatch at h
  by_cases he : (s.takeWhile isPySpace).isEmpty
  · rw [if_pos he] at h
    exact absurd h (by simp)
  · rw [if_neg he] at h
    refine ⟨s.takeWhile isPySpace, s.dropWhile isPySpace,
      (List.takeWhile_append_dropWhile isPySpace s).symm, ?_, ?_, h⟩
    · intro hnil
      exact he (by simp [hnil])
    · intro x hx
      exact List.mem_takeWhile_imp hx

/-- **C2 (amended).** `operationName` carries the name `n` iff the query text
decomposes as one-or-more whitespace characters, then `query` or `mutation`,
then one-or-more whitespace characters, then the name `n` (an identifier whose
following character, if any, cannot extend it). In particular every other
query text — one with no leading whitespace (even when its first non-blank
line starts with the keyword at position 0), or one whose leading whitespace
is not followed by the `query`/`mutation` name pattern — omits
`operationName`. -/
theorem operationName_amended (q : String) (vs : List (String × PyJson)) (n : String) :
    (buildPayload q vs).operationName = some n ↔
      ∃ (w kw ws2 cs rest : List Char) (c : Char),
        q.data = w ++ (kw ++ (ws2 ++ (c :: (cs ++ rest)))) ∧
          w ≠ [] ∧ (∀ x ∈ w, isPySpace x = true) ∧
          (kw = "query".data ∨ kw = "mutation".data) ∧
          ws2 ≠ [] ∧ (∀ x ∈ ws2, isPySpace x = true) ∧
          isIdentStart c = true ∧ (∀ x ∈ cs, isIdentCont x = true) ∧
          (∀ x, rest.head? = some x → isIdentCont x = false) ∧
          n = String.mk (c :: cs) := by
  constructor
  · intro h
    have h' : opMatch q.data = some n := h
    obtain ⟨w, r, hqr, hw, hwS, hmk⟩ := opMatch_inv h'
    obtain ⟨kw, r2, hrkw, hkw, hmn⟩ := matchKeywordName_inv hmk
    obtain ⟨ws2, cs, rest, c, hr2, hws2, hws2S, hc, hcs, hrest, hn⟩ :=
      matchNameAfterSpace_inv hmn
    exact ⟨w, kw, ws2, cs, rest, c, by rw [hqr, hrkw, hr2], hw, hwS, hkw, hws2, hws2S,
      hc, hcs, hrest, hn⟩
  · rintro ⟨w, kw, ws2, cs, rest, c, hq, hw, hwS, hkw, hws2, hws2S, hc, hcs, hrest, rfl⟩
    obtain ⟨a, w', rfl⟩ := List.exists_cons_of_ne_nil hw
    obtain ⟨b, ws2', rfl⟩ := List.exists_cons_of_ne_nil hws2
    show opMatch q.data = some (String.mk (c :: cs))
    rw [hq]
    have hshape : (a :: w') ++ (kw ++ ((b :: ws2') ++ (c :: (cs ++ rest)))) =
        a :: (w' ++ (kw ++ (b :: (ws2' ++ (c :: (cs ++ rest)))))) := by
      simp [List.append_assoc]
    rw [hshape]
    exact opMatch_eq_of_shape a w' kw b ws2' cs rest c
      (hwS a (by simp)) (fun x hx => hwS x (by simp [hx])) hkw
      (hws2S b (by simp)) (fun x hx => hws2S x (by simp [hx])) hc hcs hrest

/-- Witness for the amended C2: `"\nquery foo(x)"` yields
`operationName = some "foo"` through the decomposition, and the
whitespace-led but keyword-free `"\n\x7b items \x7d"` (and the keyword-led
but whitespace-free `"query foo"`) omit `operationName`. -/
theorem operationName_amended_witness :
    (buildPayload "\nquery foo(x)" []).operationName = some "foo" ∧
      (buildPayload "\n\x7b items \x7d" []).operationName = none ∧
      (buildPayload "query foo" []).operationName = none := by
  refine ⟨?_, by decide, by decide⟩
  exact (operationName_amended "\nquery foo(x)" [] "foo").mpr
    ⟨['\n'], "query".data, [' '], ['o', 'o'], ['(', 'x', ')'], 'f',
      by decide, by decide, by decide, Or.inl rfl, by decide, by decide, by decide,
      by decide, by intro x hx; cases hx; decide, by decide⟩
/-- **C3 (counterexample).** For a tenant that matches the `https?://` prefix,
the fixed `/api/catalog/graphql` suffix is still appended — the tenant value is
not used unchanged as the endpoint URL. -/
theorem endpointUrl_suffix_cex :
    matchHttp ("https://example.com").data = true ∧
      endpointUrl "https://example.com" = "https://example.com/api/catalog/graphql" ∧
      endpointUrl "https://example.com" ≠ "https://example.com" := by
  exact ⟨by decide, by decide, by decide⟩

/-- **C3 (amended).** A tenant matching the `http://` or `https://` prefix is
used directly as the base of the endpoint URL with the fixed
`/api/catalog/graphql` suffix appended (the suffix is appended in both cases);
a tenant that does not match the prefix is interpolated into
`https://<tenant>.zeenea.app` with that suffix. -/
theorem endpointUrl_amended (t : String) :
    (matchHttp t.data = true → endpointUrl t = t ++ "/api/catalog/graphql") ∧
      (matchHttp t.data = false →
        endpointUrl t = "https://" ++ t ++ ".zeenea.app/api/catalog/graphql") := by
  constructor <;> intro h <;> simp [endpointUrl, h]

/-- Witness for the amended C3 at concrete tenants. -/
theorem endpointUrl_amended_witness :
    endpointUrl "https://example.com" = "https://example.com" ++ "/api/catalog/graphql" ∧
      endpointUrl "acme" = "https://" ++ "acme" ++ ".zeenea.app/api/catalog/graphql" :=
  ⟨(endpointUrl_amended "https://example.com").1 (by decide),
    (endpointUrl_amended "acme").2 (by decide)⟩

/-! ## The request/retry loop of `ZeeneaGraphQLClient.request`

The HTTP endpoint is modelled as a function from the attempt index (0-based)
to the reply; `__throttle` sleeps `retries / 10` seconds before an attempt when
`retries > 0`, recorded as `(attempt index, duration)` pairs. -/

/-- An HTTP reply: status code and parsed JSON body. -/
structure HttpResp where
  status : Nat
  json : ResponseBody

/-- A present key/value entry of a JSON object, or nothing. -/
def optEntry (k : String) : Option PyJson → List (String × PyJson)
  | some v => [(k, v)]
  | none => []

/-- The JSON object a `LocJson` view was parsed from. -/
def LocJson.toPyJson (l : LocJson) : PyJson :=
  .dict (optEntry "line" (l.line.map PyJson.int) ++ optEntry "column" (l.column.map PyJson.int))

/-- The JSON object an `ErrorJson` view was parsed from. -/
def ErrorJson.toPyJson (e : ErrorJson) : PyJson :=
  .dict (optEntry "message" (e.message.map PyJson.str) ++
    optEntry "path" e.path ++
    optEntry "locations" ((e.locations.map fun ls => PyJson.list (ls.map LocJson.toPyJson))) ++
    optEntry "extensions" (e.extensions.map PyJson.dict))

/-- The JSON object a `ResponseBody` view was parsed from (used to render
`response.json()` inside failure messages). -/
def ResponseBody.toPyJson (b : ResponseBody) : PyJson :=
  .dict (optEntry "data" b.data ++
    optEntry "errors" ((b.errors.map fun es => PyJson.list (es.map ErrorJson.toPyJson))) ++
    optEntry "extensions" b.extensions)

/-- The message of the `httpx.RequestError` raised when retries are exhausted:
`f"Query failed after {retries} attempts status_code={...} {operation_name=}\n\t{query=}\n\tjson={...}"`. -/
def failMsgRetry (retries status : Nat) (opname : Option String) (query : String)
    (body : ResponseBody) : String :=
  "Query failed after " ++ toString retries ++ " attempts status_code=" ++ toString status ++
    " operation_name=" ++ pyOptRepr opname ++
    "\n\tquery=\x27" ++ query ++ "\x27\n\tjson=" ++ pyStr body.toPyJson

/-- The message of the `httpx.RequestError` raised on a non-2xx, non-5xx status:
`f"Query failed status_code={...} {operation_name=}\n\t{query=}\n\tjson={...}"`. -/
def failMsgFatal (status : Nat) (opname : Option String) (query : String)
    (body : ResponseBody) : String :=
  "Query failed status_code=" ++ toString status ++
    " operation_name=" ++ pyOptRepr opname ++
    "\n\tquery=\x27" ++ query ++ "\x27\n\tjson=" ++ pyStr body.toPyJson

/-- Observable outcome of one `request` call: the sleeps performed (attempt
index and duration in seconds), the number of POSTs issued, and either the
parsed response or the raised error message. -/
structure ReqOutcome where
  delays : List (Nat × ℚ)
  attempts : Nat
  result : Except String GqlResponse

/-- Python truthiness of the result (`True` when a response was returned). -/
def ReqOutcome.isSuccess (o : ReqOutcome) : Bool :=
  match o.result with
  | .ok _ => true
  | .error _ => false

/-- The `while True` loop of `ZeeneaGraphQLClient.request`: throttle, POST,
then return on 200, retry (or raise after `max_retries`) on 5xx, raise
otherwise. `retries` is the loop-entry value of the Python counter; the raise
condition `retries >= self.max_retries` is checked after `retries += 1`. -/
def requestLoop (resp : Nat → HttpResp) (maxRetries : Nat) (query : String)
    (opname : Option String) (attempt retries : Nat) : ReqOutcome :=
  let sleeps : List (Nat × ℚ) := if 0 < retries then [(attempt, (retries : ℚ) / 10)] else []
  let r := resp attempt
  if r.status = 200 then
    { delays := sleeps, attempts := 1, result := .ok (GqlResponse.ofJson r.json) }
  else if 500 ≤ r.status ∧ r.status < 600 then
    if h : maxRetries ≤ retries + 1 then
      { delays := sleeps, attempts := 1,
        result := .error (failMsgRetry (retries + 1) r.status opname query r.json) }
    else
      let next := requestLoop resp maxRetries query opname (attempt + 1) (retries + 1)
      { delays := sleeps ++ next.delays, attempts := 1 + next.attempts, result := next.result }
  else
    { delays := sleeps, attempts := 1,
      result := .error (failMsgFatal r.status opname query r.json) }
termination_by maxRetries - retries
decreasing_by omega

/-- `ZeeneaGraphQLClient.request`: the loop entered with a fresh retry counter. -/
def request (resp : Nat → HttpResp) (maxRetries : Nat) (query : String) : ReqOutcome :=
  requestLoop resp maxRetries query (opName query) 0 0

/-- List infix is preserved by appending on the left. -/
theorem isInfix_append_left {α : Type} {x b : List α} (a : List α) (h : x <:+: b) :
    x <:+: a ++ b := by
  obtain ⟨s, t, rfl⟩ := h
  exact ⟨a ++ s, t, by simp⟩

/-- List infix is preserved by appending on the right. -/
theorem isInfix_append_right {α : Type} {x a : List α} (b : List α) (h : x <:+: a) :
    x <:+: a ++ b := by
  obtain ⟨s, t, rfl⟩ := h
  exact ⟨s, t ++ b, by simp⟩

/-! ## Claim theorems (retry loop) -/

/-- A concrete endpoint replying 503, 503, then 200. -/
def respRetryOk : Nat → HttpResp :=
  fun i => if i < 2 then ⟨503, ⟨none, none, none⟩⟩ else ⟨200, ⟨some (.str "d"), none, none⟩⟩

/-- An endpoint replying 503 on the first three attempts and 200 afterwards. -/
def respThree503 : Nat → HttpResp :=
  fun i => if i < 3 then ⟨503, ⟨none, none, none⟩⟩ else ⟨200, ⟨some (.str "d"), none, none⟩⟩

/-- **C1 (counterexample).** With `max_retries = 3` and an endpoint replying
503 on the first three attempts and 200 on the fourth, the call does **not**
return a successful response: the loop raises after the third attempt
(`retries >= max_retries` holds once `retries = 3`), the fourth attempt is
never issued, and only 2 delays were observed before the raise. -/
theorem retry_success_after_three_503_cex :
    (request respThree503 3 "q").attempts = 3 ∧
      (request respThree503 3 "q").isSuccess = false ∧
      (request respThree503 3 "q").delays.length = 2 := by
  have hres : request respThree503 3 "q" =
      { delays := [(1, (1 : ℚ) / 10), (2, (2 : ℚ) / 10)], attempts := 3,
        result := .error (failMsgRetry 3 503 (opName "q") "q" ⟨none, none, none⟩) } := by
    simp [request, requestLoop, respThree503]
  rw [hres]
  exact ⟨rfl, rfl, rfl⟩

/-- **C1 (amended).** With `max_retries = 3`, an endpoint replying 503 on the
first two attempts and 200 on the third returns exactly one successful
response parsed from the third reply, after exactly 3 attempts, with exactly 2
inter-attempt delays (0.1 s then 0.2 s), none of them before the first
attempt, and each delay non-decreasing in the retry index. -/
theorem request_retry_success (resp : Nat → HttpResp) (q : String)
    (h0 : (resp 0).status = 503) (h1 : (resp 1).status = 503)
    (h2 : (resp 2).status = 200) :
    (request resp 3 q).result = .ok (GqlResponse.ofJson (resp 2).json) ∧
      (request resp 3 q).attempts = 3 ∧
      (request resp 3 q).delays = [(1, (1 : ℚ) / 10), (2, (2 : ℚ) / 10)] ∧
      (∀ p ∈ (request resp 3 q).delays, p.1 ≠ 0) ∧
      (request resp 3 q).delays.Chain' (fun p p' => p.2 ≤ p'.2) := by
  have hres : request resp 3 q =
      { delays := [(1, (1 : ℚ) / 10), (2, (2 : ℚ) / 10)], attempts := 3,
        result := .ok (GqlResponse.ofJson (resp 2).json) } := by
    simp [request, requestLoop, h0, h1, h2]
  rw [hres]
  refine ⟨rfl, rfl, rfl, ?_, ?_⟩
  · intro p hp
    simp only [List.mem_cons, List.not_mem_nil, or_false] at hp
    rcases hp with rfl | rfl <;> decide
  · simp only [List.chain'_cons, List.chain'_singleton, and_true]
    norm_num

/-- Witness for the amended C1 at the concrete endpoint `respRetryOk`. -/
theorem request_retry_success_witness :
    (request respRetryOk 3 "q").result = .ok (GqlResponse.ofJson (respRetryOk 2).json) ∧
      (request respRetryOk 3 "q").attempts = 3 ∧
      (request respRetryOk 3 "q").delays = [(1, (1 : ℚ) / 10), (2, (2 : ℚ) / 10)] ∧
      (∀ p ∈ (request respRetryOk 3 "q").delays, p.1 ≠ 0) ∧
      (request respRetryOk 3 "q").delays.Chain' (fun p p' => p.2 ≤ p'.2) :=
  request_retry_success respRetryOk "q" rfl rfl rfl

/-- **C4.** With `max_retries = 3` and an endpoint replying 503 on three
consecutive attempts, the call raises a failure whose message carries the last
status code (503), the operation name (as rendered in the message), the query
text and the last response body, and no further attempt is issued after the
raise (exactly 3 POSTs). -/
theorem request_exhausted_503 (resp : Nat → HttpResp) (q : String)
    (h0 : (resp 0).status = 503) (h1 : (resp 1).status = 503)
    (h2 : (resp 2).status = 503) :
    (request resp 3 q).attempts = 3 ∧
      (request resp 3 q).result = .error (failMsgRetry 3 503 (opName q) q (resp 2).json) ∧
      "503".data <:+: (failMsgRetry 3 503 (opName q) q (resp 2).json).data ∧
      q.data <:+: (failMsgRetry 3 503 (opName q) q (resp 2).json).data ∧
      (pyOptRepr (opName q)).data <:+: (failMsgRetry 3 503 (opName q) q (resp 2).json).data ∧
      (pyStr (resp 2).json.toPyJson).data <:+:
        (failMsgRetry 3 503 (opName q) q (resp 2).json).data := by
  have hres : request resp 3 q =
      { delays := [(1, (1 : ℚ) / 10), (2, (2 : ℚ) / 10)], attempts := 3,
        result := .error (failMsgRetry 3 503 (opName q) q (resp 2).json) } := by
    simp [request, requestLoop, h0, h1, h2]
  refine ⟨by rw [hres], by rw [hres], ?_, ?_, ?_, ?_⟩ <;>
    · simp only [failMsgRetry, String.data_append]
      repeat
        first
        | exact List.infix_rfl
        | exact isInfix_append_left _ List.infix_rfl
        | exact isInfix_append_right _ List.infix_rfl
        | apply isInfix_append_right

/-- Witness for C4 at a concrete all-503 endpoint and query. -/
theorem request_exhausted_503_witness :
    (request (fun _ => HttpResp.mk 503 ⟨none, none, none⟩) 3 "q").attempts = 3 ∧
      (request (fun _ => HttpResp.mk 503 ⟨none, none, none⟩) 3 "q").result =
        .error (failMsgRetry 3 503 (opName "q") "q"
          ((fun _ => HttpResp.mk 503 ⟨none, none, none⟩) 2).json) ∧
      "503".data <:+: (failMsgRetry 3 503 (opName "q") "q"
        ((fun _ => HttpResp.mk 503 ⟨none, none, none⟩) 2).json).data ∧
      "q".data <:+: (failMsgRetry 3 503 (opName "q") "q"
        ((fun _ => HttpResp.mk 503 ⟨none, none, none⟩) 2).json).data ∧
      (pyOptRepr (opName "q")).data <:+: (failMsgRetry 3 503 (opName "q") "q"
        ((fun _ => HttpResp.mk 503 ⟨none, none, none⟩) 2).json).data ∧
      (pyStr ((fun _ => HttpResp.mk 503 ⟨none, none, none⟩) 2).json.toPyJson).data <:+:
        (failMsgRetry 3 503 (opName "q") "q"
          ((fun _ => HttpResp.mk 503 ⟨none, none, none⟩) 2).json).data :=
  request_exhausted_503 (fun _ => HttpResp.mk 503 ⟨none, none, none⟩) "q" rfl rfl rfl

/-! ## The pagination loop of `export_items_in_excel.main` -/

/-- `GqlPage`: content, optional total, optional next cursor. -/
structure GqlPage (α : Type) where
  content : List α
  total_items : Option Int
  next_cursor : Option String

/-- `GqlPage.has_content`: `bool(self.content)`. -/
def GqlPage.has_content {α : Type} (p : GqlPage α) : Bool :=
  !p.content.isEmpty

/-- `GqlPage.__bool__`: a page is truthy iff it has content. -/
def GqlPage.toBool {α : Type} (p : GqlPage α) : Bool :=
  p.has_content

/-- The `while next_cursor:` loop of `export_items_in_excel.main`: each
iteration issues one request and reads the page (`fetch`, modelling
`read_page(client.request(...))`); a truthy page extends the accumulator and
continues with its `next_cursor`; a falsy page (no data, or empty content)
sets the cursor to `None`, ending the loop. The result is the accumulated
items and the number of requests issued; `fuel` bounds the iterations (the
Python loop has no bound; every claim is about finitely many iterations). -/
def pagesLoop {α : Type} (fetch : String → Option (GqlPage α)) :
    Nat → List α → Option String → List α × Nat
  | 0, items, _ => (items, 0)
  | fuel + 1, items, cur =>
    match cur with
    | none => (items, 0)
    | some c =>
      if c = "" then (items, 0)
      else
        match fetch c with
        | some page =>
          if page.toBool then
            let next := pagesLoop fetch fuel (items ++ page.content) page.next_cursor
            (next.1, next.2 + 1)
          else (items, 1)
        | none => (items, 1)

/-- **C10.** A `GqlPage` is truthy iff its content is non-empty; hence when a
fetched page parses to a page with empty content, the pagination loop sets the
cursor to none and never issues a further request — exactly one request is
made from that cursor, even when the page's `next_cursor` is present. -/
theorem empty_page_stops_pagination {α : Type} :
    (∀ p : GqlPage α, (p.toBool = true ↔ p.content ≠ [])) ∧
      (∀ (fetch : String → Option (GqlPage α)) (fuel : Nat) (items : List α) (c : String)
          (p : GqlPage α), c ≠ "" → fetch c = some p → p.content = [] →
          pagesLoop fetch (fuel + 1) items (some c) = (items, 1)) := by
  constructor
  · intro p
    simp [GqlPage.toBool, GqlPage.has_content]
  · intro fetch fuel items c p hc hf hp
    simp [pagesLoop, hc, hf, GqlPage.toBool, GqlPage.has_content, hp]

/-- Witness for C10: a page with empty content but a present `next_cursor`
stops the loop after a single request. -/
theorem empty_page_stops_pagination_witness :
    pagesLoop (fun _ => some (⟨[], none, some "c2"⟩ : GqlPage Nat)) (5 + 1) [7] (some "c1")
      = ([7], 1) :=
  empty_page_stops_pagination.2 (fun _ => some (⟨[], none, some "c2"⟩ : GqlPage Nat)) 5 [7]
    "c1" ⟨[], none, some "c2"⟩ (by decide) rfl rfl

/-! ## `GqlError.__str__` rendering

`textwrap.indent(text, prefix)` prepends `prefix` to every line of `text` that
contains a non-whitespace character (the default predicate is the truthiness
of `line.strip()`); lines are modelled as the segments between `'\n'`
characters. -/

/-- Truthiness of `line.strip()`: the line holds a non-whitespace character. -/
def notBlank (l : List Char) : Bool :=
  l.any fun c => !(isPySpace c)

/-- `textwrap.indent(text, pfx)`. -/
def textwrapIndent (text pfx : String) : String :=
  pyJoin "\n" ((splitNl text.data).map fun l =>
    if notBlank l then pfx ++ String.mk l else String.mk l)

/-- `self.code or 'ERROR'` as rendered by the f-string: the code's `str` when
the code is truthy, the literal `ERROR` otherwise. -/
def GqlError.codeStr (e : GqlError) : String :=
  match e.code with
  | some v => if pyTruthy v then pyStr v else "ERROR"
  | none => "ERROR"

/-- The `locations` fragment of `GqlError.__str__` (empty when `self.locations`
is falsy, i.e. `None` or an empty list). -/
def GqlError.locStr (e : GqlError) : String :=
  match e.locations with
  | some (l :: ls) => "\n\tlocations: " ++ pyJoin ", " ((l :: ls).map GqlErrorLocation.str)
  | _ => ""

/-- `other_ext`: the rendered extension entries whose key is not `code`. -/
def GqlError.otherExt (e : GqlError) : List String :=
  match e.extensions with
  | some kvs => (kvs.filter fun kv => !(kv.1 == "code")).map fun kv => kv.1 ++ ": " ++ pyStr kv.2
  | none => []

/-- The `extra` fragment of `GqlError.__str__` (empty when `other_ext` is empty). -/
def GqlError.extraStr (e : GqlError) : String :=
  if !(e.otherExt).isEmpty then
    "\n\textensions:\n" ++ textwrapIndent (pyJoin "\n" e.otherExt) "\t\t"
  else ""

/-- `GqlError.__str__`:
`f"{self.code or 'ERROR'}: {self.message}{locations}{extra}"`. -/
def GqlError.str (e : GqlError) : String :=
  e.codeStr ++ ": " ++ pyOptStr e.message ++ e.locStr ++ e.extraStr

/-- An element of a joined list is an infix of the join. -/
theorem pyJoin_mem_contained (sep : String) (l : List String) (x : String) (hx : x ∈ l) :
    x.data <:+: (pyJoin sep l).data := by
  induction l with
  | nil => cases hx
  | cons y rest ih =>
    cases rest with
    | nil =>
      simp only [List.mem_singleton] at hx
      subst hx
      exact List.infix_rfl
    | cons z rest' =>
      rcases List.mem_cons.mp hx with rfl | hx'
      · show x.data <:+: (x ++ sep ++ pyJoin sep (z :: rest')).data
        simp only [String.data_append]
        exact isInfix_append_right _ (isInfix_append_right _ List.infix_rfl)
      · show x.data <:+: (y ++ sep ++ pyJoin sep (z :: rest')).data
        simp only [String.data_append]
        exact isInfix_append_left _ (ih hx')

/-- Splitting a newline-free segment yields the segment alone. -/
theorem splitNl_no_nl (m : List Char) (h : ('\n') ∉ m) : splitNl m = [m] := by
  induction m with
  | nil => rfl
  | cons c rest ih =>
    have hc : ¬ c = '\n' := fun hcc => h (hcc ▸ List.mem_cons_self c rest)
    have hr : splitNl rest = [rest] := ih fun hm => h (List.mem_cons_of_mem c hm)
    simp [splitNl, hc, hr]

/-- Splitting past a leading newline-free segment. -/
theorem splitNl_append_nl (m t : List Char) (h : ('\n') ∉ m) :
    splitNl (m ++ '\n' :: t) = m :: splitNl t := by
  induction m with
  | nil => simp [splitNl]
  | cons c rest ih =>
    have hc : ¬ c = '\n' := fun hcc => h (hcc ▸ List.mem_cons_self c rest)
    have hr := ih fun hm => h (List.mem_cons_of_mem c hm)
    simp [splitNl, hc, hr]

/-- Splitting the newline-join of newline-free pieces recovers the pieces. -/
theorem splitNl_pyJoin (l : List String) (hl : l ≠ [])
    (h : ∀ x ∈ l, ('\n') ∉ x.data) :
    splitNl (pyJoin "\n" l).data = l.map String.data := by
  induction l with
  | nil => cases hl rfl
  | cons y rest ih =>
    cases rest with
    | nil =>
      show splitNl y.data = [y.data]
      exact splitNl_no_nl y.data (h y (by simp))
    | cons z rest' =>
      show splitNl (y ++ "\n" ++ pyJoin "\n" (z :: rest')).data = _
      have hy : ('\n') ∉ y.data := h y (by simp)
      have hd : (y ++ "\n" ++ pyJoin "\n" (z :: rest')).data =
          y.data ++ '\n' :: (pyJoin "\n" (z :: rest')).data := by
        simp [String.data_append]
      rw [hd, splitNl_append_nl y.data _ hy,
        ih (by simp) fun x hx => h x (List.mem_cons_of_mem y hx)]
      rfl

/-- A newline-free member of a list of lines is an infix of the indented join
of those lines. -/
theorem mem_infix_textwrapIndent (l : List String) (pfx x : String) (hx : x ∈ l)
    (hl : l ≠ []) (h : ∀ y ∈ l, ('\n') ∉ y.data) :
    x.data <:+: (textwrapIndent (pyJoin "\n" l) pfx).data := by
  rw [textwrapIndent, splitNl_pyJoin l hl h, List.map_map]
  have hmem : ((fun m => if notBlank m then pfx ++ String.mk m else String.mk m) ∘
      String.data) x ∈ l.map ((fun m => if notBlank m then pfx ++ String.mk m
        else String.mk m) ∘ String.data) := List.mem_map_of_mem _ hx
  refine List.IsInfix.trans ?_ (pyJoin_mem_contained "\n" _ _ hmem)
  show x.data <:+: (if notBlank x.data then pfx ++ String.mk x.data else String.mk x.data).data
  by_cases hb : notBlank x.data
  · rw [if_pos hb]
    show x.data <:+: (pfx ++ String.mk x.data).data
    simp only [String.data_append]
    exact isInfix_append_left _ List.infix_rfl
  · rw [if_neg hb]

/-- **C8.** The human-readable rendering of a `GqlError` includes the error's
code (when it is a non-empty string) or the literal `ERROR` when the code is
absent, includes the message (with Python's `None` rendering when absent),
includes each rendered `(line,column)` location, and includes each extension
`key: value` pair whose key is not `code`, provided the rendered pairs span a
single line (a pair whose value renders with an embedded newline is split by
`textwrap.indent` and no longer appears contiguously). -/
theorem gqlError_str_includes (e : GqlError) :
    (e.code = none → "ERROR".data <:+: e.str.data) ∧
      (∀ s, e.code = some (.str s) → s ≠ "" → s.data <:+: e.str.data) ∧
      (pyOptStr e.message).data <:+: e.str.data ∧
      (∀ ls, e.locations = some ls → ∀ l ∈ ls,
        (GqlErrorLocation.str l).data <:+: e.str.data) ∧
      (∀ kvs, e.extensions = some kvs →
        (∀ kv ∈ kvs, kv.1 ≠ "code" → ('\n') ∉ (kv.1 ++ ": " ++ pyStr kv.2).data) →
        ∀ kv ∈ kvs, kv.1 ≠ "code" →
          (kv.1 ++ ": " ++ pyStr kv.2).data <:+: e.str.data) := by
  refine ⟨?_, ?_, ?_, ?_, ?_⟩
  · intro h
    have hc : e.codeStr = "ERROR" := by simp [GqlError.codeStr, h]
    show _ <:+: (e.codeStr ++ ": " ++ pyOptStr e.message ++ e.locStr ++ e.extraStr).data
    rw [hc]
    simp only [String.data_append]
    exact isInfix_append_right _ (isInfix_append_right _ (isInfix_append_right _
      (isInfix_append_right _ List.infix_rfl)))
  · intro s h hs
    have hc : e.codeStr = s := by
      simp [GqlError.codeStr, h, pyTruthy, pyStr, hs]
    show _ <:+: (e.codeStr ++ ": " ++ pyOptStr e.message ++ e.locStr ++ e.extraStr).data
    rw [hc]
    simp only [String.data_append]
    exact isInfix_append_right _ (isInfix_append_right _ (isInfix_append_right _
      (isInfix_append_right _ List.infix_rfl)))
  · show _ <:+: (e.codeStr ++ ": " ++ pyOptStr e.message ++ e.locStr ++ e.extraStr).data
    simp only [String.data_append]
    exact isInfix_append_right _ (isInfix_append_right _
      (isInfix_append_left _ List.infix_rfl))
  · intro ls hls l hl
    show _ <:+: (e.codeStr ++ ": " ++ pyOptStr e.message ++ e.locStr ++ e.extraStr).data
    simp only [String.data_append]
    refine isInfix_append_right _ (isInfix_append_left _ ?_)
    cases ls with
    | nil => cases hl
    | cons l0 ls' =>
      have hstr : e.locStr =
          "\n\tlocations: " ++ pyJoin ", " ((l0 :: ls').map GqlErrorLocation.str) := by
        simp [GqlError.locStr, hls]
      rw [hstr]
      simp only [String.data_append]
      exact isInfix_append_left _
        (pyJoin_mem_contained ", " _ _ (List.mem_map_of_mem GqlErrorLocation.str hl))
  · intro kvs hext hNoNl kv hkv hne
    show _ <:+: (e.codeStr ++ ": " ++ pyOptStr e.message ++ e.locStr ++ e.extraStr).data
    simp only [String.data_append]
    refine isInfix_append_left _ ?_
    have hoe : e.otherExt =
        (kvs.filter fun p => !(p.1 == "code")).map fun p => p.1 ++ ": " ++ pyStr p.2 := by
      simp [GqlError.otherExt, hext]
    have hmem : (kv.1 ++ ": " ++ pyStr kv.2) ∈ e.otherExt := by
      rw [hoe]
      exact List.mem_map_of_mem _ (List.mem_filter.mpr ⟨hkv, by simp [hne]⟩)
    have hnonempty : e.otherExt ≠ [] := List.ne_nil_of_mem hmem
    have hpieces : ∀ y ∈ e.otherExt, ('\n') ∉ y.data := by
      intro y hy
      rw [hoe] at hy
      obtain ⟨p, hp, rfl⟩ := List.mem_map.mp hy
      have hp' := List.mem_filter.mp hp
      exact hNoNl p hp'.1 (by simpa using hp'.2)
    have hextra : e.extraStr =
        "\n\textensions:\n" ++ textwrapIndent (pyJoin "\n" e.otherExt) "\t\t" := by
      rw [GqlError.extraStr, if_pos (by simp [List.isEmpty_iff, hnonempty])]
    rw [hextra]
    simp only [String.data_append]
    exact isInfix_append_left _
      (mem_infix_textwrapIndent e.otherExt "\t\t" _ hmem hnonempty hpieces)

/-- Witness for C8 at a concrete error carrying a code, a message, one
location and one non-`code` extension entry. -/
theorem gqlError_str_includes_witness :
    "NOT_FOUND".data <:+: (GqlError.mk (some "no item") none
        (some [GqlErrorLocation.mk (some 3) (some 7)])
        (some [("code", .str "NOT_FOUND"), ("ref", .str "abc")])
        (some (.str "NOT_FOUND"))).str.data ∧
      (pyOptStr (some "no item")).data <:+: (GqlError.mk (some "no item") none
        (some [GqlErrorLocation.mk (some 3) (some 7)])
        (some [("code", .str "NOT_FOUND"), ("ref", .str "abc")])
        (some (.str "NOT_FOUND"))).str.data ∧
      (GqlErrorLocation.str (GqlErrorLocation.mk (some 3) (some 7))).data <:+:
        (GqlError.mk (some "no item") none
        (some [GqlErrorLocation.mk (some 3) (some 7)])
        (some [("code", .str "NOT_FOUND"), ("ref", .str "abc")])
        (some (.str "NOT_FOUND"))).str.data ∧
      ("ref" ++ ": " ++ pyStr (.str "abc")).data <:+: (GqlError.mk (some "no item") none
        (some [GqlErrorLocation.mk (some 3) (some 7)])
        (some [("code", .str "NOT_FOUND"), ("ref", .str "abc")])
        (some (.str "NOT_FOUND"))).str.data := by
  have h := gqlError_str_includes (GqlError.mk (some "no item") none
    (some [GqlErrorLocation.mk (some 3) (some 7)])
    (some [("code", .str "NOT_FOUND"), ("ref", .str "abc")])
    (some (.str "NOT_FOUND")))
  refine ⟨?_, ?_, ?_, ?_⟩
  · exact h.2.1 "NOT_FOUND" rfl (by decide)
  · exact h.2.2.1
  · exact h.2.2.2.1 _ rfl _ (by simp)
  · exact h.2.2.2.2 _ rfl (by decide) ("ref", .str "abc") (by simp) (by decide)
